import Mathlib

/-!
Verification of the RoverJoystickHmi state-synchronization hub.

The JavaScript source (`server.js` and the browser client `app.js`) is shallowly
embedded below.  Numbers are modelled by `ℝ` (JS doubles restricted to finite
values; a field that is absent or non-finite on the wire is modelled as
`Option.none`, matching the `Number.isFinite`-guarded branches in the source).
Timestamps and timer instants are `ℕ` milliseconds.  The client reconnection
delay uses `ℚ`, because every value the code produces
(1000 · 1.5ᵏ capped at 10000) is an exact dyadic rational in double precision.
-/

namespace RoverHmi

noncomputable section RealModel

/-- JS `Math.trunc` semantics of the quotient used by the `%` operator:
round toward zero. -/
def jsTrunc (q : ℝ) : ℤ := if 0 ≤ q then ⌊q⌋ else ⌈q⌉

/-- The JS remainder operator `a % b`: `a - b * trunc (a / b)`
(sign of the dividend). -/
def jsMod (a b : ℝ) : ℝ := a - b * jsTrunc (a / b)

/-- `Math.atan2 y x` over the reals (no signed zeros). -/
def atan2 (y x : ℝ) : ℝ :=
  if 0 < x then Real.arctan (y / x)
  else if x < 0 then
    (if 0 ≤ y then Real.arctan (y / x) + Real.pi else Real.arctan (y / x) - Real.pi)
  else
    (if 0 < y then Real.pi / 2 else if y < 0 then -(Real.pi / 2) else 0)

/-- `Math.hypot x y`. -/
def hypot (x y : ℝ) : ℝ := Real.sqrt (x ^ 2 + y ^ 2)

/-- Server `sanitizeNumber(value, fallback = 0)` (`server.js` lines 242-248):
non-finite input falls back to `0`, finite input is clamped to `[-1,1]` via
`Math.max(-1, Math.min(1, num))`. -/
def sanitizeNumber : Option ℝ → ℝ
  | none => 0
  | some n => max (-1) (min 1 n)

/-- A normalized stick vector `{x, y, mag, deg}`. -/
structure Stick where
  x : ℝ
  y : ℝ
  mag : ℝ
  deg : ℝ
deriving DecidableEq

/-- A raw stick payload as received on the wire; `none` models an absent or
non-finite field. -/
structure RawStick where
  x : Option ℝ
  y : Option ℝ
  mag : Option ℝ
  deg : Option ℝ

/-- Server `normalizeStickPayload` (`server.js` lines 250-262). -/
def normalizeStickPayload (p : RawStick) : Stick :=
  let x := sanitizeNumber p.x
  let y := sanitizeNumber p.y
  let mag := max 0 (min 1 (match p.mag with | some m => m | none => hypot x y))
  let deg := match p.deg with
    | some d => jsMod (jsMod d 360 + 360) 360
    | none => jsMod (atan2 y x * (180 / Real.pi) + 360) 360
  ⟨x, y, mag, deg⟩

/-- Client `clamp(value, min, max)` (`app.js` lines 32-34). -/
def clamp (value lo hi : ℝ) : ℝ := min (max value lo) hi

/-- Client `normalizeDegrees(value)` (`app.js` lines 36-38). -/
def normalizeDegrees (value : ℝ) : ℝ := jsMod (jsMod value 360 + 360) 360

/-- `Number.EPSILON` (2⁻⁵²), used by the client's zero-vector test. -/
def numberEpsilon : ℝ := (2 : ℝ) ^ (-(52 : ℤ))

/-- Client `calculateJoystickDegrees(x, y)` (`app.js` lines 40-46):
compass-style angle `wrap(90 − atan2(y,x)·180/π)` with the zero vector
special-cased to `0`. -/
def calculateJoystickDegrees (x y : ℝ) : ℝ :=
  if |x| < numberEpsilon ∧ |y| < numberEpsilon then 0
  else normalizeDegrees (90 - atan2 y x * (180 / Real.pi))

/-- The server-side derived angle for a stick with no finite `deg` field
(`server.js` lines 258-259): `wrap(atan2(y,x)·180/π)` — note, *not* the
compass-style `90 − …` formula the client uses. -/
def serverDerivedDeg (x y : ℝ) : ℝ :=
  jsMod (atan2 y x * (180 / Real.pi) + 360) 360

end RealModel

/-! ### Arithmetic facts about the JS primitives -/

theorem jsTrunc_of_nonneg {q : ℝ} (h : 0 ≤ q) : jsTrunc q = ⌊q⌋ := by
  simp [jsTrunc, h]

theorem jsTrunc_of_neg {q : ℝ} (h : q < 0) : jsTrunc q = ⌈q⌉ := by
  simp [jsTrunc, not_le.mpr h]

theorem jsMod_eq_self {a b : ℝ} (hb : 0 < b) (h0 : 0 ≤ a) (h1 : a < b) :
    jsMod a b = a := by
  have hq : 0 ≤ a / b := div_nonneg h0 hb.le
  have hfl : ⌊a / b⌋ = 0 := by
    rw [Int.floor_eq_zero_iff]
    constructor
    · exact hq
    · rw [div_lt_one hb]; exact h1
  rw [jsMod, jsTrunc_of_nonneg hq, hfl]
  push_cast
  ring

theorem jsMod_eq_sub {a b : ℝ} (hb : 0 < b) (h0 : b ≤ a) (h1 : a < 2 * b) :
    jsMod a b = a - b := by
  have hq : 0 ≤ a / b := div_nonneg (le_trans hb.le h0) hb.le
  have hfl : ⌊a / b⌋ = 1 := by
    rw [Int.floor_eq_iff]
    constructor
    · push_cast
      rw [le_div_iff₀ hb]; linarith
    · push_cast
      rw [div_lt_iff₀ hb]; linarith
  rw [jsMod, jsTrunc_of_nonneg hq, hfl]
  push_cast
  ring

theorem jsMod_nonneg_of_nonneg {a b : ℝ} (hb : 0 < b) (h0 : 0 ≤ a) :
    0 ≤ jsMod a b := by
  have hq : 0 ≤ a / b := div_nonneg h0 hb.le
  rw [jsMod, jsTrunc_of_nonneg hq]
  have h := Int.floor_le (a / b)
  have : (⌊a / b⌋ : ℝ) * b ≤ (a / b) * b := by
    exact mul_le_mul_of_nonneg_right h hb.le
  rw [div_mul_cancel₀ a hb.ne'] at this
  linarith [this]

theorem jsMod_lt_of_nonneg {a b : ℝ} (hb : 0 < b) (h0 : 0 ≤ a) :
    jsMod a b < b := by
  have hq : 0 ≤ a / b := div_nonneg h0 hb.le
  rw [jsMod, jsTrunc_of_nonneg hq]
  have h := Int.lt_floor_add_one (a / b)
  have : (a / b) * b < ((⌊a / b⌋ : ℝ) + 1) * b := by
    exact mul_lt_mul_of_pos_right h hb
  rw [div_mul_cancel₀ a hb.ne'] at this
  nlinarith [this]

theorem jsMod_gt_neg {a b : ℝ} (hb : 0 < b) : -b < jsMod a b := by
  rcases le_or_lt 0 a with h0 | h0
  · have := jsMod_nonneg_of_nonneg hb h0
    linarith
  · have hq : a / b < 0 := div_neg_of_neg_of_pos h0 hb
    rw [jsMod, jsTrunc_of_neg hq]
    have h := Int.ceil_lt_add_one (a / b)
    have : (⌈a / b⌉ : ℝ) * b < ((a / b) + 1) * b := mul_lt_mul_of_pos_right h hb
    rw [add_mul, div_mul_cancel₀ a hb.ne'] at this
    linarith

theorem jsMod_lt_of_pos {a b : ℝ} (hb : 0 < b) : jsMod a b < b := by
  rcases le_or_lt 0 a with h0 | h0
  · exact jsMod_lt_of_nonneg hb h0
  · have hq : a / b < 0 := div_neg_of_neg_of_pos h0 hb
    rw [jsMod, jsTrunc_of_neg hq]
    have h := Int.le_ceil (a / b)
    have : (a / b) * b ≤ (⌈a / b⌉ : ℝ) * b := mul_le_mul_of_nonneg_right h hb.le
    rw [div_mul_cancel₀ a hb.ne'] at this
    nlinarith

theorem arctan_nonpos_of_nonpos {q : ℝ} (h : q ≤ 0) : Real.arctan q ≤ 0 := by
  have hm := Real.arctan_strictMono.monotone h
  rwa [Real.arctan_zero] at hm

theorem arctan_nonneg_of_nonneg {q : ℝ} (h : 0 ≤ q) : 0 ≤ Real.arctan q := by
  have hm := Real.arctan_strictMono.monotone h
  rwa [Real.arctan_zero] at hm

theorem atan2_le_pi (y x : ℝ) : atan2 y x ≤ Real.pi := by
  have hpi := Real.pi_pos
  have h1 := Real.arctan_lt_pi_div_two (y / x)
  unfold atan2
  split_ifs with hx hx' hy hy1 hy2
  · linarith
  · have hq : y / x ≤ 0 := by
      rw [div_nonpos_iff]
      exact Or.inl ⟨hy, hx'.le⟩
    have := arctan_nonpos_of_nonpos hq
    linarith
  · linarith
  · linarith
  · linarith
  · linarith

theorem neg_pi_le_atan2 (y x : ℝ) : -Real.pi ≤ atan2 y x := by
  have hpi := Real.pi_pos
  have h1 := Real.neg_pi_div_two_lt_arctan (y / x)
  unfold atan2
  split_ifs with hx hx' hy hy1 hy2
  · linarith
  · linarith
  · have hyx : 0 ≤ y / x := by
      rw [div_nonneg_iff]
      exact Or.inr ⟨le_of_not_le (by simpa using hy), hx'.le⟩
    have := arctan_nonneg_of_nonneg hyx
    linarith
  · linarith
  · linarith
  · linarith

theorem atan2_zero_one : atan2 0 1 = 0 := by
  unfold atan2
  norm_num

theorem atan2_neg_one_one : atan2 (-1) 1 = -(Real.pi / 4) := by
  unfold atan2
  norm_num [Real.arctan_neg, Real.arctan_one]

theorem serverDerivedDeg_one_zero : serverDerivedDeg 1 0 = 0 := by
  unfold serverDerivedDeg
  rw [atan2_zero_one, zero_mul, zero_add]
  rw [jsMod_eq_sub (by norm_num) (by norm_num) (by norm_num)]
  norm_num

theorem calculateJoystickDegrees_one_zero : calculateJoystickDegrees 1 0 = 90 := by
  unfold calculateJoystickDegrees
  have heps : ¬(|(1 : ℝ)| < numberEpsilon ∧ |(0 : ℝ)| < numberEpsilon) := by
    intro h
    have h1 := h.1
    rw [abs_one] at h1
    have : numberEpsilon ≤ 1 := by
      unfold numberEpsilon
      norm_num
    linarith
  rw [if_neg heps]
  rw [atan2_zero_one, zero_mul, sub_zero]
  unfold normalizeDegrees
  have h1 : jsMod (90 : ℝ) 360 = 90 :=
    jsMod_eq_self (by norm_num) (by norm_num) (by norm_num)
  rw [h1]
  norm_num
  have h2 : jsMod (450 : ℝ) 360 = 450 - 360 :=
    jsMod_eq_sub (by norm_num) (by norm_num) (by norm_num)
  rw [h2]
  norm_num

/-! ### Server state machine (`server.js`) -/

/-- A registered WebSocket connection with its liveness flag (`ws.isAlive`). -/
structure Conn where
  id : ℕ
  isAlive : Bool
deriving DecidableEq

/-- The server's shared state (`server.js` lines 93-100): the authoritative
`{mode, stick, ts}` record plus the connection registry (`clients`). -/
structure ServerState where
  mode : String
  stick : Stick
  ts : ℕ
  clients : List Conn

/-- `initialStickState` (`server.js` line 95). -/
def initialStickState : Stick := ⟨0, 0, 0, 0⟩

/-- The server's startup state (`server.js` lines 96-100), with an empty
registry; the startup timestamp is irrelevant to every claim and set to 0. -/
def initialServer : ServerState := ⟨"automatic", initialStickState, 0, []⟩

/-- A parsed JSON object frame; `none` fields model absent/invalid values. -/
structure JsObj where
  type : Option String
  mode : Option String
  x : Option ℝ
  y : Option ℝ
  mag : Option ℝ
  deg : Option ℝ

/-- An incoming WebSocket frame: unparseable JSON, valid JSON that is not an
object (caught by the `!message || typeof message !== 'object'` guard), or an
object. -/
inductive Frame
  | malformed
  | nonObject
  | obj (o : JsObj)

/-- A server→client broadcast message. -/
inductive OutMsg
  | modeMsg (mode : String) (ts : ℕ)
  | stickMsg (stick : Stick) (ts : ℕ)

/-- `validateMode` (`server.js` lines 238-240). -/
def validateMode (v : Option String) : Bool :=
  v = some "automatic" ∨ v = some "manual"

/-- Result of one `ws.on('message')` invocation: the new server state, the
broadcasts it emitted, and whether a warning was logged. -/
structure HandleResult where
  state : ServerState
  broadcasts : List OutMsg
  warned : Bool

/-- The `ws.on('message')` handler (`server.js` lines 272-304) combined with
`updateState` (lines 231-236).  Note that the `setMode` case calls
`updateState({ mode })`: the stored stick is not touched. -/
noncomputable def handleMessage (s : ServerState) (f : Frame) (now : ℕ) :
    HandleResult :=
  match f with
  | .malformed => ⟨s, [], true⟩
  | .nonObject => ⟨s, [], false⟩
  | .obj o =>
    if o.type = some "setMode" then
      if validateMode o.mode then
        let s' := { s with mode := o.mode.getD "", ts := now }
        ⟨s', [.modeMsg s'.mode s'.ts], false⟩
      else ⟨s, [], true⟩
    else if o.type = some "stick" then
      let st := normalizeStickPayload ⟨o.x, o.y, o.mag, o.deg⟩
      let s' := { s with stick := st, ts := now }
      ⟨s', [.stickMsg s'.stick s'.ts], false⟩
    else ⟨s, [], true⟩

/-- `wss.on('connection')` registry effect (`server.js` lines 264-266):
the new connection starts alive. -/
def connectStep (s : ServerState) (i : ℕ) : ServerState :=
  { s with clients := s.clients ++ [⟨i, true⟩] }

/-- `ws.on('close')` (`server.js` lines 306-308). -/
def closeStep (s : ServerState) (i : ℕ) : ServerState :=
  { s with clients := s.clients.filter fun c => c.id ≠ i }

/-- `ws.on('pong')` (`server.js` lines 268-270): resets the liveness flag. -/
def onPong (c : Conn) : Conn := ⟨c.id, true⟩

/-- Registry effect of a pong from connection `i`. -/
def pongStep (s : ServerState) (i : ℕ) : ServerState :=
  { s with clients := s.clients.map fun c => if c.id = i then onPong c else c }

/-- One tick of the heartbeat timer (`server.js` lines 329-348): connections
whose flag is `false` are removed and terminated (second component); every
other connection has its flag set to `false` and is sent a ping (first
component). -/
def heartbeatTick (cs : List Conn) : List Conn × List Conn :=
  ((cs.filter fun c => c.isAlive).map fun c => ⟨c.id, false⟩,
   cs.filter fun c => !c.isAlive)

/-- Registry effect of one heartbeat tick. -/
def heartbeatStep (s : ServerState) : ServerState :=
  { s with clients := (heartbeatTick s.clients).1 }

/-- Reachable server states: the initial state, plus anything produced by a
message, a connection attach/detach, a pong, or a heartbeat tick. -/
inductive Reach : ServerState → Prop
  | init : Reach initialServer
  | message (s : ServerState) (f : Frame) (now : ℕ) :
      Reach s → Reach (handleMessage s f now).state
  | connect (s : ServerState) (i : ℕ) : Reach s → Reach (connectStep s i)
  | disconnect (s : ServerState) (i : ℕ) : Reach s → Reach (closeStep s i)
  | pong (s : ServerState) (i : ℕ) : Reach s → Reach (pongStep s i)
  | heartbeat (s : ServerState) : Reach s → Reach (heartbeatStep s)

/-- The range invariants of §3 of the spec for a stick vector. -/
def StickInv (st : Stick) : Prop :=
  -1 ≤ st.x ∧ st.x ≤ 1 ∧ -1 ≤ st.y ∧ st.y ≤ 1 ∧
  0 ≤ st.mag ∧ st.mag ≤ 1 ∧ 0 ≤ st.deg ∧ st.deg < 360

/-- The full shared-state invariant: ranges plus mode membership. -/
def ServerInv (s : ServerState) : Prop :=
  (s.mode = "automatic" ∨ s.mode = "manual") ∧ StickInv s.stick

/-! ### Normalizer range lemmas -/

theorem sanitizeNumber_mem (v : Option ℝ) :
    -1 ≤ sanitizeNumber v ∧ sanitizeNumber v ≤ 1 := by
  cases v with
  | none => norm_num [sanitizeNumber]
  | some n =>
    unfold sanitizeNumber
    constructor
    · exact le_max_left _ _
    · exact max_le (by norm_num) (min_le_left _ _)

theorem sanitizeNumber_of_mem {n : ℝ} (h1 : -1 ≤ n) (h2 : n ≤ 1) :
    sanitizeNumber (some n) = n := by
  have h : sanitizeNumber (some n) = max (-1) (min 1 n) := rfl
  rw [h, min_eq_right h2, max_eq_right h1]

theorem atan2_deg_wrap_mem (x y : ℝ) :
    0 ≤ jsMod (atan2 y x * (180 / Real.pi) + 360) 360 ∧
    jsMod (atan2 y x * (180 / Real.pi) + 360) 360 < 360 := by
  have hpi := Real.pi_pos
  have a1 := atan2_le_pi y x
  have a2 := neg_pi_le_atan2 y x
  have hc : 0 < 180 / Real.pi := by positivity
  have hlo : (-Real.pi) * (180 / Real.pi) ≤ atan2 y x * (180 / Real.pi) :=
    mul_le_mul_of_nonneg_right a2 hc.le
  have heq : (-Real.pi) * (180 / Real.pi) = -180 := by
    field_simp
    ring
  have h0 : 0 ≤ atan2 y x * (180 / Real.pi) + 360 := by
    rw [heq] at hlo
    linarith
  exact ⟨jsMod_nonneg_of_nonneg (by norm_num) h0,
         jsMod_lt_of_nonneg (by norm_num) h0⟩

theorem supplied_deg_wrap_mem (d : ℝ) :
    0 ≤ jsMod (jsMod d 360 + 360) 360 ∧ jsMod (jsMod d 360 + 360) 360 < 360 := by
  have i1 : -(360 : ℝ) < jsMod d 360 := jsMod_gt_neg (by norm_num)
  have h0 : 0 ≤ jsMod d 360 + 360 := by linarith
  exact ⟨jsMod_nonneg_of_nonneg (by norm_num) h0,
         jsMod_lt_of_nonneg (by norm_num) h0⟩

theorem normalizeStickPayload_stickInv (p : RawStick) :
    StickInv (normalizeStickPayload p) := by
  obtain ⟨hx1, hx2⟩ := sanitizeNumber_mem p.x
  obtain ⟨hy1, hy2⟩ := sanitizeNumber_mem p.y
  obtain ⟨px, py, pmag, pdeg⟩ := p
  unfold normalizeStickPayload StickInv
  simp only
  refine ⟨hx1, hx2, hy1, hy2, le_max_left _ _,
          max_le (by norm_num) (min_le_left _ _), ?_⟩
  cases pdeg with
  | none => exact atan2_deg_wrap_mem _ _
  | some d => exact supplied_deg_wrap_mem d

/-! ### Concrete normalizer evaluations -/

theorem one_le_sqrt_two : (1 : ℝ) ≤ Real.sqrt 2 := by
  nlinarith [Real.sq_sqrt (show (0 : ℝ) ≤ 2 by norm_num), Real.sqrt_nonneg 2]

theorem sqrt_two_lt_two : Real.sqrt 2 < 2 := by
  nlinarith [Real.sq_sqrt (show (0 : ℝ) ≤ 2 by norm_num), Real.sqrt_nonneg 2]

theorem normalizeStickPayload_two_negtwo :
    normalizeStickPayload ⟨some 2, some (-2), none, none⟩ = ⟨1, -1, 1, 315⟩ := by
  have hx : sanitizeNumber (some 2) = 1 := by
    have h : sanitizeNumber (some 2) = max (-1) (min 1 2) := rfl
    rw [h, min_eq_left (by norm_num), max_eq_right (by norm_num)]
  have hy : sanitizeNumber (some (-2)) = -1 := by
    have h : sanitizeNumber (some (-2)) = max (-1) (min 1 (-2)) := rfl
    rw [h, min_eq_right (by norm_num), max_eq_left (by norm_num)]
  have hmag : max 0 (min 1 (hypot 1 (-1))) = 1 := by
    have hh : hypot 1 (-1) = Real.sqrt 2 := by
      unfold hypot
      norm_num
    rw [hh, min_eq_left one_le_sqrt_two]
    norm_num
  have hdeg : jsMod (atan2 (-1) 1 * (180 / Real.pi) + 360) 360 = 315 := by
    rw [atan2_neg_one_one]
    have hpi := Real.pi_ne_zero
    have harg : -(Real.pi / 4) * (180 / Real.pi) + 360 = 315 := by
      field_simp
      ring
    rw [harg]
    exact jsMod_eq_self (by norm_num) (by norm_num) (by norm_num)
  unfold normalizeStickPayload
  simp [hx, hy, hmag, hdeg, Stick.mk.injEq]

theorem normalizeStickPayload_zero :
    normalizeStickPayload ⟨some 0, some 0, some 0, some 0⟩ = ⟨0, 0, 0, 0⟩ := by
  have h0 : sanitizeNumber (some 0) = 0 := sanitizeNumber_of_mem (by norm_num) (by norm_num)
  have hdeg : jsMod (jsMod 0 360 + 360) 360 = 0 := by
    have hin : jsMod (0 : ℝ) 360 = 0 :=
      jsMod_eq_self (by norm_num) (by norm_num) (by norm_num)
    rw [hin, zero_add]
    rw [jsMod_eq_sub (by norm_num) (by norm_num) (by norm_num)]
    norm_num
  unfold normalizeStickPayload
  simp [h0, hdeg, Stick.mk.injEq]

/-! ### Componentwise clamping facts -/

theorem clamp_cases (x : ℝ) :
    sanitizeNumber (some x) = x ∨ (sanitizeNumber (some x)) ^ 2 = 1 := by
  have h : sanitizeNumber (some x) = max (-1) (min 1 x) := rfl
  rcases le_or_lt x (-1) with h1 | h1
  · right
    rw [h, min_eq_right (by linarith), max_eq_left h1]
    norm_num
  · rcases le_or_lt 1 x with h2 | h2
    · right
      rw [h, min_eq_left h2, max_eq_right (by norm_num)]
      norm_num
    · left
      exact sanitizeNumber_of_mem (by linarith) (by linarith)

theorem clamped_sq_sum_ge_one {x y : ℝ} (h : 1 < x ^ 2 + y ^ 2) :
    1 ≤ (sanitizeNumber (some x)) ^ 2 + (sanitizeNumber (some y)) ^ 2 := by
  rcases clamp_cases x with hx | hx <;> rcases clamp_cases y with hy | hy
  · rw [hx, hy]; linarith
  · nlinarith [sq_nonneg (sanitizeNumber (some x))]
  · nlinarith [sq_nonneg (sanitizeNumber (some y))]
  · nlinarith [sq_nonneg (sanitizeNumber (some x))]

theorem normalize_overdrive_mag (x y : ℝ) (h : 1 < x ^ 2 + y ^ 2) :
    (normalizeStickPayload ⟨some x, some y, none, none⟩).mag = 1 := by
  have hsum := clamped_sq_sum_ge_one h
  have hsqrt : 1 ≤ hypot (sanitizeNumber (some x)) (sanitizeNumber (some y)) := by
    unfold hypot
    have := Real.sqrt_le_sqrt hsum
    rwa [Real.sqrt_one] at this
  show max 0 (min 1 (hypot (sanitizeNumber (some x)) (sanitizeNumber (some y)))) = 1
  rw [min_eq_left hsqrt, max_eq_right (by norm_num)]

/-! ### Server invariant preservation -/

theorem handleMessage_serverInv (s : ServerState) (f : Frame) (now : ℕ)
    (h : ServerInv s) : ServerInv (handleMessage s f now).state := by
  cases f with
  | malformed => exact h
  | nonObject => exact h
  | obj o =>
    simp only [handleMessage]
    split_ifs with ht hv hs
    · have hm : o.mode = some "automatic" ∨ o.mode = some "manual" := by
        simpa [validateMode] using hv
      refine ⟨?_, h.2⟩
      rcases hm with hm | hm <;> simp [hm]
    · exact h
    · exact ⟨h.1, normalizeStickPayload_stickInv _⟩
    · exact h

/-- C4: every state reachable from the initial state through any sequence of
incoming messages (including malformed, unknown-typed, and out-of-range ones)
and registry events satisfies `x,y ∈ [-1,1]`, `mag ∈ [0,1]`, `deg ∈ [0,360)`
and `mode ∈ {automatic, manual}`. -/
theorem C4_reachable_state_invariants (s : ServerState) (h : Reach s) :
    ServerInv s := by
  induction h with
  | init =>
    refine ⟨Or.inl rfl, ?_⟩
    refine ⟨?_, ?_, ?_, ?_, ?_, ?_, ?_, ?_⟩ <;> norm_num [initialServer, initialStickState]
  | message s' f now hr ih => exact handleMessage_serverInv s' f now ih
  | connect s' i hr ih => exact ih
  | disconnect s' i hr ih => exact ih
  | pong s' i hr ih => exact ih
  | heartbeat s' hr ih => exact ih

/-- C4 witness: the invariant holds at the initial state. -/
theorem C4_witness : ServerInv initialServer :=
  C4_reachable_state_invariants initialServer Reach.init

/-- C5: a malformed-JSON frame, a frame with an unknown `type`, and a
`setMode` frame with an invalid mode each leave the shared state unchanged,
emit no broadcast, and log a warning; and no incoming frame ever removes a
connection from the registry. -/
theorem C5_bad_messages_ignored (s : ServerState) (now : ℕ) :
    (handleMessage s .malformed now = ⟨s, [], true⟩) ∧
    (∀ o : JsObj, o.type ≠ some "setMode" → o.type ≠ some "stick" →
      handleMessage s (.obj o) now = ⟨s, [], true⟩) ∧
    (∀ o : JsObj, o.type = some "setMode" → validateMode o.mode = false →
      handleMessage s (.obj o) now = ⟨s, [], true⟩) ∧
    (∀ f : Frame, (handleMessage s f now).state.clients = s.clients) := by
  refine ⟨rfl, ?_, ?_, ?_⟩
  · intro o h1 h2
    simp only [handleMessage]
    rw [if_neg h1, if_neg h2]
  · intro o h1 h2
    simp only [handleMessage]
    rw [if_pos h1, if_neg (by simp [h2])]
  · intro f
    cases f with
    | malformed => rfl
    | nonObject => rfl
    | obj o =>
      simp only [handleMessage]
      split_ifs <;> rfl

/-- C5 witness: a concrete unknown-type frame on the initial state. -/
theorem C5_witness :
    handleMessage initialServer
      (.obj ⟨some "ping", none, none, none, none, none⟩) 0 =
      ⟨initialServer, [], true⟩ :=
  (C5_bad_messages_ignored initialServer 0).2.1 _ (by decide) (by decide)

/-! ### Message-level step equations -/

theorem handleMessage_setMode_frame (s : ServerState) (m : String) (now : ℕ)
    (h : validateMode (some m) = true) :
    handleMessage s (.obj ⟨some "setMode", some m, none, none, none, none⟩) now =
      ⟨{ s with mode := m, ts := now }, [.modeMsg m now], false⟩ := by
  simp [handleMessage, h]

theorem handleMessage_stick_frame (s : ServerState) (now : ℕ)
    (px py pmag pdeg : Option ℝ) :
    handleMessage s (.obj ⟨some "stick", none, px, py, pmag, pdeg⟩) now =
      ⟨{ s with stick := normalizeStickPayload ⟨px, py, pmag, pdeg⟩, ts := now },
       [.stickMsg (normalizeStickPayload ⟨px, py, pmag, pdeg⟩) now], false⟩ := by
  simp [handleMessage]

/-- C1 counterexample: the spec scenario `{x:2, y:-2} → {x:0.707…, y:-0.707…,
mag:1, deg:135}` fails on the code: the server clamps componentwise, giving
`x = 1` (not `√2/2 ≈ 0.707`) and `deg = 315` (not `135`). -/
theorem C1_counterexample :
    (normalizeStickPayload ⟨some 2, some (-2), none, none⟩).x = 1 ∧
    Real.sqrt 2 / 2 < 1 ∧
    (normalizeStickPayload ⟨some 2, some (-2), none, none⟩).deg = 315 ∧
    (315 : ℝ) ≠ 135 := by
  refine ⟨by rw [normalizeStickPayload_two_negtwo], ?_,
          by rw [normalizeStickPayload_two_negtwo], by norm_num⟩
  have := sqrt_two_lt_two
  linarith

/-- C1 (amended): for every `(x,y)` with `x²+y² > 1` (and no supplied `mag`)
the server normalizer yields `mag = 1`, but `x` and `y` are clamped
componentwise rather than scaled to the unit circle; in particular
`{x:2, y:-2}` normalizes to `{x:1, y:-1, mag:1, deg:315}`. -/
theorem C1_amended :
    (∀ x y : ℝ, 1 < x ^ 2 + y ^ 2 →
      (normalizeStickPayload ⟨some x, some y, none, none⟩).mag = 1) ∧
    normalizeStickPayload ⟨some 2, some (-2), none, none⟩ = ⟨1, -1, 1, 315⟩ :=
  ⟨fun x y h => normalize_overdrive_mag x y h, normalizeStickPayload_two_negtwo⟩

/-- C1 witness: the amended theorem applied at `(2, -2)`. -/
theorem C1_witness :
    (1 : ℝ) < 2 ^ 2 + (-2) ^ 2 ∧
    (normalizeStickPayload ⟨some 2, some (-2), none, none⟩).mag = 1 :=
  ⟨by norm_num, C1_amended.1 2 (-2) (by norm_num)⟩

/-- C2: the server and client disagree on the derived angle.  At `(x,y)=(1,0)`
the server (`normalizeStickPayload` with no finite `deg`) computes
`wrap(atan2(y,x)·180/π) = 0`, while the client (`calculateJoystickDegrees`)
computes the spec's compass-style `wrap(90 − atan2(y,x)·180/π) = 90`.  The two
sides of the protocol therefore do not agree, contradicting the spec's
"single source of truth … agree bit-for-bit" requirement (the client matches
the spec's formula; the server does not). -/
theorem C2_server_client_deg_disagree :
    (normalizeStickPayload ⟨some 1, some 0, none, none⟩).deg = serverDerivedDeg 1 0 ∧
    serverDerivedDeg 1 0 = 0 ∧
    calculateJoystickDegrees 1 0 = 90 ∧
    (0 : ℝ) ≠ 90 := by
  refine ⟨?_, serverDerivedDeg_one_zero, calculateJoystickDegrees_one_zero, by norm_num⟩
  have h1 : sanitizeNumber (some 1) = 1 := sanitizeNumber_of_mem (by norm_num) (by norm_num)
  have h0 : sanitizeNumber (some 0) = 0 := sanitizeNumber_of_mem (by norm_num) (by norm_num)
  show jsMod (atan2 (sanitizeNumber (some 0)) (sanitizeNumber (some 1)) *
      (180 / Real.pi) + 360) 360 = serverDerivedDeg 1 0
  rw [h1, h0]
  rfl

/-- C3 counterexample: a valid `setMode` to `automatic` does *not* force the
stored stick to zero — `updateState({ mode })` leaves the stick untouched, so
a nonzero stick survives the mode switch. -/
theorem C3_counterexample :
    (handleMessage ⟨"manual", ⟨0.5, 0, 0.5, 90⟩, 0, []⟩
        (.obj ⟨some "setMode", some "automatic", none, none, none, none⟩)
        1).state.stick = ⟨0.5, 0, 0.5, 90⟩ ∧
    (0.5 : ℝ) ≠ 0 := by
  constructor
  · rw [handleMessage_setMode_frame _ _ _ (by decide)]
  · norm_num

/-- C3 (amended): the server's `setMode` only replaces the mode and stamps
`ts`, leaving the stick unchanged; the zero stick after
automatic→manual→automatic comes from the client's separate zero-stick
message, after which the broadcast stick is `{0,0,0,0}`. -/
theorem C3_amended :
    (∀ (s : ServerState) (m : String) (now : ℕ), validateMode (some m) = true →
      (handleMessage s (.obj ⟨some "setMode", some m, none, none, none, none⟩)
          now).state =
        { s with mode := m, ts := now } ∧
      (handleMessage s (.obj ⟨some "setMode", some m, none, none, none, none⟩)
          now).broadcasts = [.modeMsg m now]) ∧
    ((handleMessage (handleMessage (handleMessage initialServer
        (.obj ⟨some "setMode", some "manual", none, none, none, none⟩) 1).state
        (.obj ⟨some "setMode", some "automatic", none, none, none, none⟩) 2).state
        (.obj ⟨some "stick", none, some 0, some 0, some 0, some 0⟩) 3).state.stick =
        ⟨0, 0, 0, 0⟩ ∧
     (handleMessage (handleMessage (handleMessage initialServer
        (.obj ⟨some "setMode", some "manual", none, none, none, none⟩) 1).state
        (.obj ⟨some "setMode", some "automatic", none, none, none, none⟩) 2).state
        (.obj ⟨some "stick", none, some 0, some 0, some 0, some 0⟩) 3).broadcasts =
        [.stickMsg ⟨0, 0, 0, 0⟩ 3]) := by
  constructor
  · intro s m now h
    rw [handleMessage_setMode_frame s m now h]
    exact ⟨rfl, rfl⟩
  · rw [handleMessage_setMode_frame _ _ _ (by decide),
        handleMessage_setMode_frame _ _ _ (by decide),
        handleMessage_stick_frame, normalizeStickPayload_zero]
    exact ⟨rfl, rfl⟩

/-- C3 witness: the amended setMode equation at a concrete input. -/
theorem C3_witness :
    validateMode (some "manual") = true ∧
    (handleMessage initialServer
        (.obj ⟨some "setMode", some "manual", none, none, none, none⟩) 5).state =
      { initialServer with mode := "manual", ts := 5 } :=
  ⟨by decide, (C3_amended.1 initialServer "manual" 5 (by decide)).1⟩

/-! ### Downstream circuit breaker (`postToNodeRed`, `server.js` lines 129-190) -/

/-- The module-level circuit-breaker state: `nodeRedNextAttemptAt` (0 when the
breaker is closed), `nodeRedSuppressedWarningLogged` and whether
`nodeRedCooldownTimer` is armed. -/
structure Breaker where
  nextAttemptAt : ℕ
  warnLogged : Bool
  timerArmed : Bool
deriving DecidableEq

/-- Outcome of one downstream `fetch` attempt: completed with a 2xx or non-2xx
status, aborted by the 5 s timeout, refused (`ECONNREFUSED`), or failed with
any other error. -/
inductive FetchOutcome
  | ok (status2xx : Bool)
  | abortTimeout
  | connRefused
  | otherError

/-- Observable result of one `postToNodeRed` call: the breaker state after the
call, whether an HTTP request was actually issued, whether the suppression
warning was logged by this call, and the absolute fire time of a cooldown
timer newly armed by this call. -/
structure PostResult where
  breaker : Breaker
  requested : Bool
  warned : Bool
  armedFireAt : Option ℕ
deriving DecidableEq

/-- `postToNodeRed` (`server.js` lines 129-190).  `tCheck` is `Date.now()` at
the guard (line 134), `tOpen` at the breaker-opening assignment (line 165) and
`tArm` at the delay computation (line 174); `cd` is
`NODE_RED_RETRY_COOLDOWN_MS`. -/
def postToNodeRed (b : Breaker) (cd tCheck tOpen tArm : ℕ)
    (oc : FetchOutcome) : PostResult :=
  if b.nextAttemptAt ≠ 0 ∧ tCheck < b.nextAttemptAt then
    ⟨b, false, false, none⟩
  else
    match oc with
    | .ok _ => ⟨⟨0, false, false⟩, true, false, none⟩
    | .abortTimeout => ⟨b, true, false, none⟩
    | .otherError => ⟨b, true, false, none⟩
    | .connRefused =>
      let na := tOpen + cd
      let warned := !b.warnLogged
      if b.timerArmed then
        ⟨⟨na, true, true⟩, true, warned, none⟩
      else
        let delay := na - tArm
        let delay' := if delay = 0 then cd else delay
        ⟨⟨na, true, true⟩, true, warned, some (tArm + delay')⟩

/-- The cooldown timer firing (`server.js` lines 175-178): it disarms itself
and calls `scheduleNodeRedPush` to reattempt once. -/
def cooldownTimerFire (b : Breaker) : Breaker :=
  { b with timerArmed := false }

/-- C6: the downstream circuit breaker.  (i) During the open window every call
is skipped: no HTTP request, no warning, no state change, no new timer.
(ii) A connection-refused failure from a closed quiescent breaker opens it for
exactly the cooldown, logs the one warning, and arms one timer that fires
exactly when the cooldown elapses.  (iii) While the warning flag is set, a
further refusal logs nothing, and while a timer is armed no second timer is
created.  (iv) A successful (any-status) completion closes the breaker and
resets the warning flag and timer.  (v) Abort/timeout and other error classes
leave the breaker unchanged — they never open it. -/
theorem C6_circuit_breaker :
    (∀ (b : Breaker) (cd t1 t2 t3 : ℕ) (oc : FetchOutcome),
      b.nextAttemptAt ≠ 0 → t1 < b.nextAttemptAt →
        postToNodeRed b cd t1 t2 t3 oc = ⟨b, false, false, none⟩) ∧
    (∀ cd t1 t2 t3 : ℕ, t3 < t2 + cd →
      postToNodeRed ⟨0, false, false⟩ cd t1 t2 t3 .connRefused =
        ⟨⟨t2 + cd, true, true⟩, true, true, some (t2 + cd)⟩) ∧
    (∀ (b : Breaker) (cd t1 t2 t3 : ℕ),
      ¬(b.nextAttemptAt ≠ 0 ∧ t1 < b.nextAttemptAt) →
      b.warnLogged = true →
        (postToNodeRed b cd t1 t2 t3 .connRefused).warned = false) ∧
    (∀ (b : Breaker) (cd t1 t2 t3 : ℕ),
      ¬(b.nextAttemptAt ≠ 0 ∧ t1 < b.nextAttemptAt) →
      b.timerArmed = true →
        (postToNodeRed b cd t1 t2 t3 .connRefused).armedFireAt = none) ∧
    (∀ (b : Breaker) (cd t1 t2 t3 : ℕ) (st : Bool),
      ¬(b.nextAttemptAt ≠ 0 ∧ t1 < b.nextAttemptAt) →
        postToNodeRed b cd t1 t2 t3 (.ok st) = ⟨⟨0, false, false⟩, true, false, none⟩) ∧
    (∀ (b : Breaker) (cd t1 t2 t3 : ℕ),
      ¬(b.nextAttemptAt ≠ 0 ∧ t1 < b.nextAttemptAt) →
        postToNodeRed b cd t1 t2 t3 .abortTimeout = ⟨b, true, false, none⟩ ∧
        postToNodeRed b cd t1 t2 t3 .otherError = ⟨b, true, false, none⟩) := by
  refine ⟨?_, ?_, ?_, ?_, ?_, ?_⟩
  · intro b cd t1 t2 t3 oc h1 h2
    unfold postToNodeRed
    rw [if_pos ⟨h1, h2⟩]
  · intro cd t1 t2 t3 h
    unfold postToNodeRed
    rw [if_neg (by simp)]
    simp only [Bool.not_false, if_neg Bool.false_ne_true]
    have hd : t2 + cd - t3 ≠ 0 := by omega
    rw [if_neg hd]
    have : t3 + (t2 + cd - t3) = t2 + cd := by omega
    rw [this]
  · intro b cd t1 t2 t3 h hw
    unfold postToNodeRed
    rw [if_neg h]
    cases hb : b.timerArmed <;> simp [hw]
  · intro b cd t1 t2 t3 h ht
    unfold postToNodeRed
    rw [if_neg h, ht]
    simp
  · intro b cd t1 t2 t3 st h
    unfold postToNodeRed
    rw [if_neg h]
  · intro b cd t1 t2 t3 h
    unfold postToNodeRed
    rw [if_neg h]
    exact ⟨rfl, rfl⟩

/-- C6 witness: with the default 10 s cooldown, a refused attempt at t=1000
opens the breaker until t=11000, and an attempt at t=5000 during the window is
skipped entirely. -/
theorem C6_witness :
    ((1000 : ℕ) < 1000 + 10000 ∧
      postToNodeRed ⟨0, false, false⟩ 10000 1000 1000 1000 .connRefused =
        ⟨⟨11000, true, true⟩, true, true, some 11000⟩) ∧
    ((11000 : ℕ) ≠ 0 ∧ (5000 : ℕ) < 11000 ∧
      postToNodeRed ⟨11000, true, true⟩ 10000 5000 5000 5000 .connRefused =
        ⟨⟨11000, true, true⟩, false, false, none⟩) := by
  refine ⟨⟨by norm_num, ?_⟩, by norm_num, by norm_num, ?_⟩
  · have h := C6_circuit_breaker.2.1 10000 1000 1000 1000 (by norm_num)
    simpa using h
  · have h := C6_circuit_breaker.1 ⟨11000, true, true⟩ 10000 5000 5000 5000
      .connRefused (by norm_num) (by norm_num)
    simpa using h

/-! ### Coalescing throttle scheduler
(`scheduleNodeRedPush`, `server.js` lines 192-227, window 50 ms;
`queueStickSend`/`sendStickPayload`, `app.js` lines 101-130, window 33 ms) -/

/-- `NODE_RED_THROTTLE_MS` (`server.js` line 102). -/
def NODE_RED_THROTTLE_MS : ℕ := 50

/-- `UI_THROTTLE_MS` (`app.js` line 12). -/
def UI_THROTTLE_MS : ℕ := 33

/-- Scheduler state: `lastSend` is `lastNodeRedDispatch` / `lastStickSend`,
`pending` is the absolute fire time of the armed deferred timer
(`nodeRedTimeout` / `pendingStickTimeout`), and `cur` is the latest state
snapshot established by mutations. -/
structure Sched (α : Type) where
  lastSend : ℕ
  pending : Option ℕ
  cur : α
deriving DecidableEq

/-- Scheduler events: a state mutation at time `t` (the new snapshot becomes
current, then the push is scheduled), or the armed deferred timer firing. -/
inductive SEv (α : Type)
  | mutate (t : ℕ) (snap : α)
  | fire (t : ℕ)

/-- One scheduler step.  A mutation inside the throttle window arms at most
one timer, at the window boundary `lastSend + W`; the timer fire dispatches
whatever snapshot is current *at fire time*. -/
def schedStep {α : Type} (W : ℕ) (s : Sched α) (e : SEv α) :
    Sched α × Option (ℕ × α) :=
  match e with
  | .mutate t snap =>
    let s' : Sched α := { s with cur := snap }
    if W ≤ t - s.lastSend then ({ s' with lastSend := t }, some (t, snap))
    else if s.pending.isSome then (s', none)
    else ({ s' with pending := some (s.lastSend + W) }, none)
  | .fire t => ({ s with lastSend := t, pending := none }, some (t, s.cur))

/-- Run the scheduler over an event list, collecting the dispatched sends. -/
def run {α : Type} (W : ℕ) (s : Sched α) : List (SEv α) → List (ℕ × α)
  | [] => []
  | e :: es =>
    let r := schedStep W s e
    (match r.2 with | some o => [o] | none => []) ++ run W r.1 es

theorem run_cons {α : Type} (W : ℕ) (s : Sched α) (e : SEv α) (es : List (SEv α)) :
    run W s (e :: es) =
      (match (schedStep W s e).2 with | some o => [o] | none => []) ++
        run W (schedStep W s e).1 es := rfl

/-- Well-timed traces under the standard single-threaded event-loop model:
event times strictly increase, a pending timer fires exactly at its scheduled
time, and no later event is processed while a due timer is still pending. -/
inductive ValidTrace {α : Type} (W : ℕ) : ℕ → Sched α → List (SEv α) → Prop
  | nil (clk : ℕ) (s : Sched α) : ValidTrace W clk s []
  | mutate (clk : ℕ) (s : Sched α) (t : ℕ) (snap : α) (es : List (SEv α)) :
      clk < t →
      (∀ T, s.pending = some T → t < T) →
      ValidTrace W t (schedStep W s (.mutate t snap)).1 es →
      ValidTrace W clk s (.mutate t snap :: es)
  | fire (clk : ℕ) (s : Sched α) (t : ℕ) (es : List (SEv α)) :
      clk < t →
      s.pending = some t →
      ValidTrace W t (schedStep W s (.fire t)).1 es →
      ValidTrace W clk s (.fire t :: es)

/-- Scheduler invariant: the last dispatch is in the past and any armed timer
fires exactly one window after it. -/
def SchedInv {α : Type} (W clk : ℕ) (s : Sched α) : Prop :=
  s.lastSend ≤ clk ∧ ∀ T, s.pending = some T → T = s.lastSend + W

/-- `SpacedFrom W b ts`: the times `ts` are each at least `W` after the
previous one, the first at least `W` after base `b`. -/
inductive SpacedFrom (W : ℕ) : ℕ → List ℕ → Prop
  | nil (b : ℕ) : SpacedFrom W b []
  | cons (b t : ℕ) (ts : List ℕ) :
      b + W ≤ t → SpacedFrom W t ts → SpacedFrom W b (t :: ts)

theorem schedStep_mut_send {α : Type} (W : ℕ) (s : Sched α) (t : ℕ) (snap : α)
    (h : W ≤ t - s.lastSend) :
    schedStep W s (.mutate t snap) =
      ({ s with cur := snap, lastSend := t }, some (t, snap)) := by
  simp [schedStep, h]

theorem schedStep_mut_skip {α : Type} (W : ℕ) (s : Sched α) (t : ℕ) (snap : α)
    (T : ℕ) (h : ¬ W ≤ t - s.lastSend) (hp : s.pending = some T) :
    schedStep W s (.mutate t snap) = ({ s with cur := snap }, none) := by
  simp [schedStep, h, hp]

theorem schedStep_mut_arm {α : Type} (W : ℕ) (s : Sched α) (t : ℕ) (snap : α)
    (h : ¬ W ≤ t - s.lastSend) (hp : s.pending = none) :
    schedStep W s (.mutate t snap) =
      ({ s with cur := snap, pending := some (s.lastSend + W) }, none) := by
  simp [schedStep, h, hp]

theorem schedStep_fire {α : Type} (W : ℕ) (s : Sched α) (t : ℕ) :
    schedStep W s (.fire t) =
      ({ s with lastSend := t, pending := none }, some (t, s.cur)) := rfl

/-- Spacing lemma: on any well-timed trace, consecutive dispatch times are at
least one full window apart (and the first is a window after the previous
dispatch). -/
theorem run_spaced {α : Type} (W clk : ℕ) (s : Sched α) (es : List (SEv α))
    (hv : ValidTrace W clk s es) :
    SchedInv W clk s → SpacedFrom W s.lastSend ((run W s es).map Prod.fst) := by
  induction hv with
  | nil clk s =>
    intro hi
    exact SpacedFrom.nil _
  | mutate clk s t snap es hclk hpend hrest ih =>
    intro hi
    obtain ⟨hL, hT⟩ := hi
    rcases hp : s.pending with _ | T
    · by_cases htw : W ≤ t - s.lastSend
      · rw [run_cons, schedStep_mut_send W s t snap htw]
        rw [schedStep_mut_send W s t snap htw] at ih
        simp only [List.singleton_append, List.map_cons]
        refine SpacedFrom.cons _ _ _ (by omega) ?_
        exact ih ⟨le_refl t, fun T' hT' => by simp [hp] at hT'⟩
      · rw [run_cons, schedStep_mut_arm W s t snap htw hp]
        rw [schedStep_mut_arm W s t snap htw hp] at ih
        simp only [List.nil_append]
        apply ih
        constructor
        · show s.lastSend ≤ t
          omega
        · intro T' hT'
          have h2 : (some (s.lastSend + W) : Option ℕ) = some T' := hT'
          injection h2 with h3
          show T' = s.lastSend + W
          omega
    · by_cases htw : W ≤ t - s.lastSend
      · exfalso
        have h1 := hpend T hp
        have h2 := hT T hp
        omega
      · rw [run_cons, schedStep_mut_skip W s t snap T htw hp]
        rw [schedStep_mut_skip W s t snap T htw hp] at ih
        simp only [List.nil_append]
        apply ih
        constructor
        · show s.lastSend ≤ t
          omega
        · intro T' hT'
          have h2 : s.pending = some T' := hT'
          show T' = s.lastSend + W
          exact hT T' h2
  | fire clk s t es hclk hpend hrest ih =>
    intro hi
    obtain ⟨hL, hT⟩ := hi
    have ht : t = s.lastSend + W := hT t hpend
    rw [schedStep_fire] at ih
    rw [run_cons, schedStep_fire]
    simp only [List.singleton_append, List.map_cons]
    refine SpacedFrom.cons _ _ _ (by omega) ?_
    apply ih
    constructor
    · show t ≤ t
      exact le_refl t
    · intro T' hT'
      have h2 : (none : Option ℕ) = some T' := hT'
      exact absurd h2 (by simp)

/-- C7: for both throttled channels (server→downstream, `W = 50` ms; client UI,
`W = 33` ms): (i) on any well-timed trace, dispatches are at least one window
apart, so any window of length `W` contains at most one outbound send; (ii) a
mutation arriving inside the window while a timer is pending leaves the single
pending timer untouched (never a second timer) and queues nothing — only the
current snapshot is replaced; (iii) the deferred fire dispatches the snapshot
current at fire time, so intermediate updates are dropped, never queued. -/
theorem C7_throttle_coalescing :
    (∀ (α : Type) (W clk : ℕ) (s : Sched α) (es : List (SEv α)),
      ValidTrace W clk s es → SchedInv W clk s →
        SpacedFrom W s.lastSend ((run W s es).map Prod.fst)) ∧
    (∀ (α : Type) (W : ℕ) (s : Sched α) (t : ℕ) (snap : α) (T : ℕ),
      ¬ W ≤ t - s.lastSend → s.pending = some T →
        schedStep W s (.mutate t snap) = ({ s with cur := snap }, none)) ∧
    (∀ (α : Type) (W : ℕ) (s : Sched α) (t : ℕ),
      schedStep W s (.fire t) =
        ({ s with lastSend := t, pending := none }, some (t, s.cur))) ∧
    NODE_RED_THROTTLE_MS = 50 ∧ UI_THROTTLE_MS = 33 := by
  refine ⟨?_, ?_, ?_, rfl, rfl⟩
  · intro α W clk s es hv hi
    exact run_spaced W clk s es hv hi
  · intro α W s t snap T h hp
    exact schedStep_mut_skip W s t snap T h hp
  · intro α W s t
    exact schedStep_fire W s t

/-- C7 witness: the spacing theorem applied to a concrete well-timed trace at
the server's 50 ms window — a burst at t=100,120 produces dispatches at
t=100 and t=150 only, then a lone mutation dispatches at t=300. -/
theorem C7_witness :
    SpacedFrom 50 ((⟨0, none, 0⟩ : Sched ℕ).lastSend)
      ((run 50 (⟨0, none, 0⟩ : Sched ℕ)
        [.mutate 100 1, .mutate 120 2, .fire 150, .mutate 300 3]).map Prod.fst) := by
  apply C7_throttle_coalescing.1 ℕ 50 0
  · refine ValidTrace.mutate 0 _ 100 1 _ (by norm_num) ?_ ?_
    · intro T h
      simp at h
    · refine ValidTrace.mutate 100 _ 120 2 _ (by norm_num) ?_ ?_
      · intro T h
        simp [schedStep] at h
      · refine ValidTrace.fire 120 _ 150 _ (by norm_num) (by decide) ?_
        refine ValidTrace.mutate 150 _ 300 3 _ (by norm_num) ?_ ?_
        · intro T h
          simp [schedStep] at h
        · exact ValidTrace.nil _ _
  · exact ⟨le_refl 0, fun T h => by simp at h⟩

/-! ### Client reconnection backoff (`app.js` lines 14-16, 179-201, 244-250) -/

/-- `MAX_RECONNECT_DELAY` (`app.js` line 16). -/
def MAX_RECONNECT_DELAY : ℚ := 10000

/-- Client reconnection state: the current backoff interval `reconnectDelay`
and the pending reconnect timer (`reconnectTimer`), holding the delay it was
armed with. -/
structure ReconnState where
  delay : ℚ
  timer : Option ℚ
deriving DecidableEq

/-- `scheduleReconnect` (`app.js` lines 244-250): clears any previous timer
and arms exactly one new timer with the *current* backoff interval. -/
def scheduleReconnect (s : ReconnState) : ReconnState :=
  ⟨s.delay, some s.delay⟩

/-- The reconnect timer firing (`app.js` lines 246-249): multiply the interval
by 1.5, cap at the ceiling, then reconnect (which clears the fired timer). -/
def reconnectTimerFire (s : ReconnState) : ReconnState :=
  ⟨min (s.delay * (3 / 2)) MAX_RECONNECT_DELAY, none⟩

/-- The socket `open` handler (`app.js` lines 192-201): a successful
connection resets the interval to the 1000 ms floor. -/
def socketOpenReset (s : ReconnState) : ReconnState :=
  ⟨1000, s.timer⟩

/-- The delay waited before the (n+1)-st reconnection attempt, starting from
the 1000 ms floor: each wait is the current interval, which the timer callback
then multiplies by 1.5 and caps at 10000 ms. -/
def reconnectWait : ℕ → ℚ
  | 0 => 1000
  | n + 1 => min (reconnectWait n * (3 / 2)) MAX_RECONNECT_DELAY

theorem reconnectWait_eq_iterate (n : ℕ) :
    reconnectWait n = (reconnectTimerFire^[n] ⟨1000, none⟩).delay := by
  induction n with
  | zero => rfl
  | succ n ih =>
    rw [Function.iterate_succ_apply']
    show min (reconnectWait n * (3 / 2)) MAX_RECONNECT_DELAY =
      min ((reconnectTimerFire^[n] ⟨1000, none⟩).delay * (3 / 2)) MAX_RECONNECT_DELAY
    rw [ih]

theorem reconnectWait_values :
    reconnectWait 0 = 1000 ∧ reconnectWait 1 = 1500 ∧ reconnectWait 2 = 2250 ∧
    reconnectWait 3 = 3375 ∧ reconnectWait 4 = 5062.5 ∧
    reconnectWait 5 = 7593.75 ∧ reconnectWait 6 = 10000 ∧
    reconnectWait 7 = 10000 := by
  have step : ∀ n : ℕ,
      reconnectWait (n + 1) = min (reconnectWait n * (3 / 2)) 10000 :=
    fun _ => rfl
  have e0 : reconnectWait 0 = 1000 := rfl
  have e1 : reconnectWait 1 = 1500 := by
    have h : reconnectWait 1 = min (reconnectWait 0 * (3 / 2)) 10000 := step 0
    rw [h, e0]
    norm_num [min_def]
  have e2 : reconnectWait 2 = 2250 := by
    have h : reconnectWait 2 = min (reconnectWait 1 * (3 / 2)) 10000 := step 1
    rw [h, e1]
    norm_num [min_def]
  have e3 : reconnectWait 3 = 3375 := by
    have h : reconnectWait 3 = min (reconnectWait 2 * (3 / 2)) 10000 := step 2
    rw [h, e2]
    norm_num [min_def]
  have e4 : reconnectWait 4 = 5062.5 := by
    have h : reconnectWait 4 = min (reconnectWait 3 * (3 / 2)) 10000 := step 3
    rw [h, e3]
    norm_num [min_def]
  have e5 : reconnectWait 5 = 7593.75 := by
    have h : reconnectWait 5 = min (reconnectWait 4 * (3 / 2)) 10000 := step 4
    rw [h, e4]
    norm_num [min_def]
  have e6 : reconnectWait 6 = 10000 := by
    have h : reconnectWait 6 = min (reconnectWait 5 * (3 / 2)) 10000 := step 5
    rw [h, e5]
    norm_num [min_def]
  have e7 : reconnectWait 7 = 10000 := by
    have h : reconnectWait 7 = min (reconnectWait 6 * (3 / 2)) 10000 := step 6
    rw [h, e6]
    norm_num [min_def]
  exact ⟨e0, e1, e2, e3, e4, e5, e6, e7⟩

/-- C8: the successive client reconnection delays are exactly 1000, 1500,
2250, 3375, 5062.5, 7593.75, 10000, 10000, … ms — the sequence produced by
the timer-fire transition of the reconnection manager; from the 7th attempt
on the delay stays at the 10000 ms cap; a successful connection resets the
interval to 1000 ms; and `scheduleReconnect` always clears the previous timer
and arms exactly one timer, carrying the current interval. -/
theorem C8_reconnect_backoff :
    ([reconnectWait 0, reconnectWait 1, reconnectWait 2, reconnectWait 3,
      reconnectWait 4, reconnectWait 5, reconnectWait 6, reconnectWait 7] =
      [1000, 1500, 2250, 3375, 5062.5, 7593.75, 10000, 10000]) ∧
    (∀ n : ℕ, 6 ≤ n → reconnectWait n = 10000) ∧
    (∀ n : ℕ, reconnectWait n = (reconnectTimerFire^[n] ⟨1000, none⟩).delay) ∧
    (∀ s : ReconnState, (socketOpenReset s).delay = 1000) ∧
    (∀ s : ReconnState, scheduleReconnect s = ⟨s.delay, some s.delay⟩) := by
  obtain ⟨e0, e1, e2, e3, e4, e5, e6, e7⟩ := reconnectWait_values
  refine ⟨?_, ?_, reconnectWait_eq_iterate, fun s => rfl, fun s => rfl⟩
  · rw [e0, e1, e2, e3, e4, e5, e6, e7]
  · intro n hn
    induction n with
    | zero => omega
    | succ m ih =>
      rcases Nat.lt_or_ge m 6 with hm | hm
      · have hm5 : m = 5 := by omega
        subst hm5
        exact e6
      · have h10 : reconnectWait m = 10000 := ih (by omega)
        have hstep : reconnectWait (m + 1) =
            min (reconnectWait m * (3 / 2)) MAX_RECONNECT_DELAY := rfl
        rw [hstep, h10]
        norm_num [MAX_RECONNECT_DELAY, min_def]

/-- C8 witness: the cap persists at the 9th attempt. -/
theorem C8_witness : (6 : ℕ) ≤ 8 ∧ reconnectWait 8 = 10000 :=
  ⟨by norm_num, C8_reconnect_backoff.2.1 8 (by norm_num)⟩

/-! ### Heartbeat monitor (`server.js` lines 328-350) -/

theorem heartbeatTick_dead_mem {cs : List Conn} {c : Conn}
    (hc : c ∈ cs) (h : c.isAlive = false) : c ∈ (heartbeatTick cs).2 := by
  unfold heartbeatTick
  simp only [List.mem_filter]
  exact ⟨hc, by simp [h]⟩

theorem heartbeatTick_alive_mem {cs : List Conn} {c : Conn}
    (hc : c ∈ cs) (h : c.isAlive = true) :
    (⟨c.id, false⟩ : Conn) ∈ (heartbeatTick cs).1 := by
  unfold heartbeatTick
  simp only [List.mem_map]
  exact ⟨c, List.mem_filter.mpr ⟨hc, by simp [h]⟩, rfl⟩

theorem heartbeatTick_dead_not_surviving {cs : List Conn} {c : Conn}
    (hn : (cs.map Conn.id).Nodup) (hc : c ∈ cs) (h : c.isAlive = false) :
    ∀ d ∈ (heartbeatTick cs).1, d.id ≠ c.id := by
  intro d hd
  unfold heartbeatTick at hd
  simp only [List.mem_map] at hd
  obtain ⟨e, he, rfl⟩ := hd
  have he' := List.mem_filter.mp he
  intro hid
  have heq : e = c :=
    List.inj_on_of_nodup_map hn he'.1 hc hid
  rw [heq] at he'
  rw [h] at he'
  simp at he'

theorem heartbeatTick_ids_nodup {cs : List Conn}
    (hn : (cs.map Conn.id).Nodup) :
    ((heartbeatTick cs).1.map Conn.id).Nodup := by
  unfold heartbeatTick
  have hmap : ((cs.filter fun c => c.isAlive).map fun c =>
      (⟨c.id, false⟩ : Conn)).map Conn.id =
      (cs.filter fun c => c.isAlive).map Conn.id := by
    rw [List.map_map]
    rfl
  simp only [hmap]
  have hsub : List.Sublist ((cs.filter fun c => c.isAlive).map Conn.id)
      (cs.map Conn.id) :=
    List.Sublist.map Conn.id (List.filter_sublist cs)
  exact hn.sublist hsub

/-- C9: at every heartbeat tick, each registered connection with a false
liveness flag is removed from the registry and terminated, and every other
connection is re-flagged false and pinged; a pong resets the flag; and a
connection that never replies survives its first probing tick (flag now
false) and is evicted — terminated and absent from the registry — on the next
tick. -/
theorem C9_heartbeat_eviction :
    (∀ (cs : List Conn) (c : Conn), c ∈ cs → c.isAlive = false →
      c ∈ (heartbeatTick cs).2) ∧
    (∀ (cs : List Conn) (c : Conn), (cs.map Conn.id).Nodup → c ∈ cs →
      c.isAlive = false → ∀ d ∈ (heartbeatTick cs).1, d.id ≠ c.id) ∧
    (∀ (cs : List Conn) (c : Conn), c ∈ cs → c.isAlive = true →
      (⟨c.id, false⟩ : Conn) ∈ (heartbeatTick cs).1) ∧
    (∀ c : Conn, onPong c = ⟨c.id, true⟩) ∧
    (∀ (cs : List Conn) (c : Conn), (cs.map Conn.id).Nodup → c ∈ cs →
      c.isAlive = true →
      (⟨c.id, false⟩ : Conn) ∈ (heartbeatTick cs).1 ∧
      (⟨c.id, false⟩ : Conn) ∈ (heartbeatTick (heartbeatTick cs).1).2 ∧
      ∀ d ∈ (heartbeatTick (heartbeatTick cs).1).1, d.id ≠ c.id) := by
  refine ⟨fun cs c hc h => heartbeatTick_dead_mem hc h,
          fun cs c hn hc h => heartbeatTick_dead_not_surviving hn hc h,
          fun cs c hc h => heartbeatTick_alive_mem hc h,
          fun c => rfl,
          ?_⟩
  intro cs c hn hc h
  have h1 : (⟨c.id, false⟩ : Conn) ∈ (heartbeatTick cs).1 :=
    heartbeatTick_alive_mem hc h
  have hn1 : ((heartbeatTick cs).1.map Conn.id).Nodup :=
    heartbeatTick_ids_nodup hn
  refine ⟨h1, heartbeatTick_dead_mem h1 rfl, ?_⟩
  have := heartbeatTick_dead_not_surviving hn1 h1 rfl
  simpa using this

/-- C9 witness: with registry `[⟨1,true⟩, ⟨2,false⟩]`, connection 1 (alive,
never ponging) survives the first tick flagged false and is terminated and
gone after the second. -/
theorem C9_witness :
    ([(⟨1, true⟩ : Conn), ⟨2, false⟩].map Conn.id).Nodup ∧
    (⟨1, true⟩ : Conn) ∈ [(⟨1, true⟩ : Conn), ⟨2, false⟩] ∧
    (⟨1, false⟩ : Conn) ∈ (heartbeatTick [⟨1, true⟩, ⟨2, false⟩]).1 ∧
    (⟨1, false⟩ : Conn) ∈
      (heartbeatTick (heartbeatTick [⟨1, true⟩, ⟨2, false⟩]).1).2 := by
  have hn : ([(⟨1, true⟩ : Conn), ⟨2, false⟩].map Conn.id).Nodup := by decide
  have hm : (⟨1, true⟩ : Conn) ∈ [(⟨1, true⟩ : Conn), ⟨2, false⟩] := by decide
  have h := C9_heartbeat_eviction.2.2.2.2 [⟨1, true⟩, ⟨2, false⟩] ⟨1, true⟩ hn hm rfl
  exact ⟨hn, hm, h.1, h.2.1⟩

/-! ### Client state and server-message application (`app.js`) -/

noncomputable section ClientModel

/-- The client's local state: mode, stick, the rendered thumb position (the
visual widget moved by `setThumbPosition`, in normalized coordinates), and the
`isDragging` flag. -/
structure ClientState where
  mode : String
  stick : Stick
  thumb : ℝ × ℝ
  isDragging : Bool

/-- The stick-field computation of `applyStickData` (`app.js` lines 67-78):
`Number(v) || 0` fallback then clamp for `x,y`; supplied-finite-or-derived
`mag` and `deg`, using the client's compass-style angle. -/
def clientNormalizeStick (raw : RawStick) : Stick :=
  let x := clamp (raw.x.getD 0) (-1) 1
  let y := clamp (raw.y.getD 0) (-1) 1
  let mag := clamp (match raw.mag with | some m => m | none => hypot x y) 0 1
  let deg := match raw.deg with
    | some d => normalizeDegrees d
    | none => calculateJoystickDegrees x y
  ⟨x, y, mag, deg⟩

/-- `applyStickData` (`app.js` lines 67-83): always overwrites `state.stick`
(and the telemetry display); the thumb is repositioned unless a drag is in
progress *and* the data came from the server. -/
def applyStickData (s : ClientState) (raw : RawStick) (fromServer : Bool) :
    ClientState :=
  let st := clientNormalizeStick raw
  { s with
    stick := st,
    thumb := if !s.isDragging || !fromServer then (st.x, st.y) else s.thumb }

/-- The server-origin path of client `setMode` (`app.js` lines 85-99): invalid
modes are ignored; leaving manual while not dragging zeroes the local stick
(via `applyStickData`, local origin). -/
def clientSetModeFromServer (s : ClientState) (mode : String) : ClientState :=
  if mode ≠ "automatic" ∧ mode ≠ "manual" then s
  else
    let s1 := { s with mode := mode }
    if mode ≠ "manual" ∧ !s1.isDragging then
      applyStickData s1 ⟨some 0, some 0, some 0, some 0⟩ false
    else s1

/-- A server→client message as seen by the client's socket `message` handler
(`app.js` lines 203-231); `none` models an absent/falsy field. -/
inductive DownMsg
  | stateMsg (mode : Option String) (stick : Option RawStick)
  | modeMsg (mode : Option String)
  | stickMsg (stick : Option RawStick)

/-- The client's socket `message` handler (`app.js` lines 203-231). -/
def clientOnMessage (s : ClientState) (m : DownMsg) : ClientState :=
  match m with
  | .stateMsg mode stick =>
    let s1 := match mode with
      | some md => clientSetModeFromServer s md
      | none => s
    match stick with
    | some st => applyStickData s1 st true
    | none => s1
  | .modeMsg mode =>
    match mode with
    | some md => clientSetModeFromServer s md
    | none => s
  | .stickMsg stick =>
    match stick with
    | some st => applyStickData s st true
    | none => s

end ClientModel

theorem normalizeDegrees_zero : normalizeDegrees 0 = 0 := by
  unfold normalizeDegrees
  have hin : jsMod (0 : ℝ) 360 = 0 :=
    jsMod_eq_self (by norm_num) (by norm_num) (by norm_num)
  rw [hin, zero_add]
  rw [jsMod_eq_sub (by norm_num) (by norm_num) (by norm_num)]
  norm_num

theorem clamp_zero_neg_one_one : clamp 0 (-1) 1 = 0 := by
  unfold clamp
  rw [max_eq_left (by norm_num), min_eq_left (by norm_num)]

theorem clientNormalizeStick_zero :
    clientNormalizeStick ⟨some 0, some 0, some 0, some 0⟩ = ⟨0, 0, 0, 0⟩ := by
  have hc := clamp_zero_neg_one_one
  have hm : clamp (0 : ℝ) 0 1 = 0 := by
    unfold clamp
    rw [max_eq_left (by norm_num), min_eq_left (by norm_num)]
  unfold clientNormalizeStick
  simp [hc, hm, normalizeDegrees_zero, Stick.mk.injEq]

/-- C10 counterexample: during an active drag, a server `stick` message does
*not* leave the client's stick state fields unchanged — `applyStickData`
always overwrites `state.stick`; only the thumb repositioning is skipped.
Here a dragging client holding `x = 1` receives a zero stick and its stored
`x` becomes `0`. -/
theorem C10_counterexample :
    (clientOnMessage ⟨"manual", ⟨1, 0, 1, 90⟩, (1, 0), true⟩
        (.stickMsg (some ⟨some 0, some 0, some 0, some 0⟩))).stick.x = 0 ∧
    (0 : ℝ) ≠ 1 := by
  constructor
  · show (applyStickData ⟨"manual", ⟨1, 0, 1, 90⟩, (1, 0), true⟩
        ⟨some 0, some 0, some 0, some 0⟩ true).stick.x = 0
    unfold applyStickData
    rw [clientNormalizeStick_zero]
  · norm_num

/-- C10 (amended): while a drag gesture is active, a server `stick` message
still overwrites the client's stick state fields (`state.stick` takes the
normalized incoming values); what is suppressed until the gesture ends is
only the thumb position (the visual widget), and `mode` is untouched by a
`stick` message. -/
theorem C10_amended (s : ClientState) (raw : RawStick)
    (h : s.isDragging = true) :
    (clientOnMessage s (.stickMsg (some raw))).thumb = s.thumb ∧
    (clientOnMessage s (.stickMsg (some raw))).stick = clientNormalizeStick raw ∧
    (clientOnMessage s (.stickMsg (some raw))).mode = s.mode := by
  show (applyStickData s raw true).thumb = s.thumb ∧
    (applyStickData s raw true).stick = clientNormalizeStick raw ∧
    (applyStickData s raw true).mode = s.mode
  unfold applyStickData
  simp [h]

/-- C10 witness: the amended theorem at a concrete dragging client. -/
theorem C10_witness :
    ((⟨"manual", ⟨1, 0, 1, 90⟩, (1, 0), true⟩ : ClientState).isDragging = true) ∧
    (clientOnMessage ⟨"manual", ⟨1, 0, 1, 90⟩, (1, 0), true⟩
        (.stickMsg (some ⟨some 0, some 0, some 0, some 0⟩))).thumb = (1, 0) :=
  ⟨rfl, (C10_amended ⟨"manual", ⟨1, 0, 1, 90⟩, (1, 0), true⟩
    ⟨some 0, some 0, some 0, some 0⟩ rfl).1⟩
